import Mathlib

/-!
Verification of the LockBay-Binance signing proxy core
(`src/routes/binance.js` : `BinanceAuth`, and the error-handler middleware).

The JavaScript code is shallowly embedded:
* a JS object holding request parameters is a `List (String × String)` in
  property-insertion order with pairwise-distinct keys (JS objects cannot
  hold duplicate keys); `objGet` is property read, `jsInsert` is property
  assignment (update in place if the key exists, else append — exactly the
  JS semantics of `params.timestamp = ...` and of `{...params, signature}`);
* `Date.now()` is an explicit `ts : Nat` clock parameter;
* Node's `crypto.createHmac("sha256", secret).update(s).digest("hex")` is
  a full executable HMAC-SHA256 over UTF-8 bytes (FIPS 180-4 / RFC 2104),
  hex-encoded lowercase;
* JS `Array.prototype.sort()` without a comparator orders strings by their
  UTF-16 code-unit sequences (ordinal ascending); `jsSortStrings` implements
  exactly that order;
* `encodeURIComponent` is modelled per ECMA-262: ASCII alphanumerics and
  `- _ . ! ~ * ' ( )` pass through, every other character is UTF-8
  percent-encoded with uppercase hex digits.
-/

namespace LockBay

/-- Property read on a JS object (`obj[k]`): first pair with the given key. -/
def objGet (l : List (String × String)) (k : String) : Option String :=
  match l with
  | [] => none
  | (a, v) :: rest => if a = k then some v else objGet rest k

/-- Property assignment on a JS object (`obj[k] = v`): if the key already
exists its value is replaced in place (insertion order preserved), otherwise
the pair is appended at the end. -/
def jsInsert (l : List (String × String)) (k v : String) :
    List (String × String) :=
  if (objGet l k).isSome then
    l.map (fun kv => if kv.1 = k then (k, v) else kv)
  else
    l ++ [(k, v)]

/-- JS falsiness of an environment variable: `undefined` or the empty
string are falsy (`!this.apiKey`). -/
def jsFalsyStr (o : Option String) : Bool :=
  match o with
  | none => true
  | some s => s.isEmpty

/-- JS `a || b` on optional strings (`none` models `undefined`; an empty
string is falsy and also falls through to `b`). -/
def jsSelStr (a b : Option String) : Option String :=
  match a with
  | some s => if s.isEmpty then b else some s
  | none => b

/-- JS `a || d` on an optional number (`none` models `undefined`; `0` is
falsy and falls through to the default). -/
def jsOrNat (a : Option Nat) (d : Nat) : Nat :=
  match a with
  | some n => if n = 0 then d else n
  | none => d

/-- JS `toLowerCase()` (ASCII, which is all the code compares). -/
def toLowerCase (s : String) : String :=
  String.mk (s.data.map Char.toLower)

/-! UTF-8 and UTF-16 encodings of strings, and hex digits. -/

/-- UTF-8 byte sequence of a unicode scalar value. -/
def utf8Char (c : Char) : List Nat :=
  let n := c.toNat
  if n < 0x80 then [n]
  else if n < 0x800 then [0xC0 + n / 0x40, 0x80 + n % 0x40]
  else if n < 0x10000 then
    [0xE0 + n / 0x1000, 0x80 + (n / 0x40) % 0x40, 0x80 + n % 0x40]
  else
    [0xF0 + n / 0x40000, 0x80 + (n / 0x1000) % 0x40,
     0x80 + (n / 0x40) % 0x40, 0x80 + n % 0x40]

/-- UTF-8 byte sequence of a string. -/
def utf8Str (s : String) : List Nat :=
  s.data.foldr (fun c acc => utf8Char c ++ acc) []

/-- UTF-16 code-unit sequence of a unicode scalar value (surrogate pair for
scalars beyond the basic multilingual plane). -/
def utf16Char (c : Char) : List Nat :=
  let n := c.toNat
  if n < 0x10000 then [n]
  else [0xD800 + (n - 0x10000) / 0x400, 0xDC00 + (n - 0x10000) % 0x400]

/-- UTF-16 code-unit sequence of a string. -/
def utf16Str (s : String) : List Nat :=
  s.data.foldr (fun c acc => utf16Char c ++ acc) []

/-- Lexicographic strict order on code-unit sequences. -/
def natListLt : List Nat → List Nat → Bool
  | [], [] => false
  | [], _ :: _ => true
  | _ :: _, [] => false
  | a :: as, b :: bs =>
    if a < b then true else if b < a then false else natListLt as bs

/-- The string order used by JS `Array.prototype.sort()` without a
comparator: ordinal (UTF-16 code-unit-wise) ascending. `jsStrLe a b` means
`a` sorts no later than `b`. -/
def jsStrLe (a b : String) : Bool :=
  !(natListLt (utf16Str b) (utf16Str a))

/-- Insertion of a string into a list kept in `jsStrLe` order. -/
def insertKey (x : String) : List String → List String
  | [] => [x]
  | y :: ys => if jsStrLe x y then x :: y :: ys else y :: insertKey x ys

/-- JS `Array.prototype.sort()` on an array of strings: the ordinal-ascending
reordering (insertion sort; the result is order-canonical because the order
is total and the keys of a JS object are pairwise distinct). -/
def jsSortStrings (l : List String) : List String :=
  l.foldr insertKey []

/-- Uppercase hex digit of a value below 16 (as used by
`encodeURIComponent` percent-escapes). -/
def hexUp (n : Nat) : Char :=
  if n < 10 then Char.ofNat (48 + n) else Char.ofNat (55 + n)

/-- Lowercase hex digit of a value below 16 (as used by Node's
`digest("hex")`). -/
def hexLo (n : Nat) : Char :=
  if n < 10 then Char.ofNat (48 + n) else Char.ofNat (87 + n)

/-- Characters `encodeURIComponent` leaves unescaped besides ASCII
alphanumerics: `- _ . ! ~ * ' ( )` (the apostrophe is `Char.ofNat 39`). -/
def uriMarks : List Char :=
  ['-', '_', '.', '!', '~', '*', Char.ofNat 39, '(', ')']

/-- Whether `encodeURIComponent` leaves a character unescaped. -/
def uriUnreserved (c : Char) : Bool :=
  (c.isAlpha || c.isDigit) || uriMarks.contains c

/-- Percent-escape of one byte: `%XY` with uppercase hex digits. -/
def pctByte (b : Nat) : List Char :=
  ['%', hexUp (b / 16), hexUp (b % 16)]

/-- ECMA-262 `encodeURIComponent`: unreserved characters pass through,
everything else is UTF-8 percent-encoded. -/
def encodeURIComponent (s : String) : String :=
  String.mk (s.data.foldr
    (fun c acc =>
      if uriUnreserved c then c :: acc
      else (utf8Char c).foldr (fun b bs => pctByte b ++ bs) acc)
    [])

/-- Lowercase hex rendering of a byte list (Node `digest("hex")`). -/
def hexLowerOfBytes (l : List Nat) : String :=
  String.mk (l.foldr (fun b acc => hexLo (b / 16) :: hexLo (b % 16) :: acc) [])

/-- Join a list of rendered `key=value` fragments with `&`
(`Array.prototype.join("&")`). -/
def joinAmp : List String → String
  | [] => ""
  | [x] => x
  | x :: y :: ys => x ++ "&" ++ joinAmp (y :: ys)

/-!
SHA-256 (FIPS 180-4) and HMAC (RFC 2104), the model of Node's
`crypto.createHmac("sha256", secret)`. Machine words are `Nat` reduced
modulo `2 ^ 32`; bytes are `Nat` below 256.
-/

/-- Addition modulo `2 ^ 32`. -/
def add32 (a b : Nat) : Nat := (a + b) % 4294967296

/-- Right rotation of a 32-bit word. -/
def rotr32 (n x : Nat) : Nat :=
  (x >>> n) ||| ((x % (2 ^ n)) <<< (32 - n))

/-- SHA-256 `Ch` function. -/
def shaCh (x y z : Nat) : Nat := (x &&& y) ^^^ ((x ^^^ 0xFFFFFFFF) &&& z)

/-- SHA-256 `Maj` function. -/
def shaMaj (x y z : Nat) : Nat := (x &&& y) ^^^ (x &&& z) ^^^ (y &&& z)

/-- SHA-256 big sigma 0. -/
def bigSigma0 (x : Nat) : Nat := rotr32 2 x ^^^ rotr32 13 x ^^^ rotr32 22 x

/-- SHA-256 big sigma 1. -/
def bigSigma1 (x : Nat) : Nat := rotr32 6 x ^^^ rotr32 11 x ^^^ rotr32 25 x

/-- SHA-256 small sigma 0. -/
def smallSigma0 (x : Nat) : Nat := rotr32 7 x ^^^ rotr32 18 x ^^^ (x >>> 3)

/-- SHA-256 small sigma 1. -/
def smallSigma1 (x : Nat) : Nat := rotr32 17 x ^^^ rotr32 19 x ^^^ (x >>> 10)

/-- The 64 SHA-256 round constants of FIPS 180-4 (decimal rendering of the
fractional cube-root table). -/
def shaK : Array Nat := #[
  1116352408, 1899447441, 3049323471, 3921009573,
  961987163, 1508970993, 2453635748, 2870763221,
  3624381080, 310598401, 607225278, 1426881987,
  1925078388, 2162078206, 2614888103, 3248222580,
  3835390401, 4022224774, 264347078, 604807628,
  770255983, 1249150122, 1555081692, 1996064986,
  2554220882, 2821834349, 2952996808, 3210313671,
  3336571891, 3584528711, 113926993, 338241895,
  666307205, 773529912, 1294757372, 1396182291,
  1695183700, 1986661051, 2177026350, 2456956037,
  2730485921, 2820302411, 3259730800, 3345764771,
  3516065817, 3600352804, 4094571909, 275423344,
  430227734, 506948616, 659060556, 883997877,
  958139571, 1322822218, 1537002063, 1747873779,
  1955562222, 2024104815, 2227730452, 2361852424,
  2428436474, 2756734187, 3204031479, 3329325298]

/-- SHA-256 message padding: append `0x80`, zero bytes up to 56 mod 64,
then the bit length as eight big-endian bytes. -/
def shaPad (msg : List Nat) : List Nat :=
  let len := msg.length
  let zeros := (64 + 56 - (len + 1) % 64) % 64
  let bitLen := len * 8
  msg ++ 0x80 :: List.replicate zeros 0 ++
    [(bitLen >>> 56) % 256, (bitLen >>> 48) % 256, (bitLen >>> 40) % 256,
     (bitLen >>> 32) % 256, (bitLen >>> 24) % 256, (bitLen >>> 16) % 256,
     (bitLen >>> 8) % 256, bitLen % 256]

/-- Split a byte list into 64-byte blocks. -/
def chunks64 (l : List Nat) : List (List Nat) :=
  if h : l = [] then []
  else l.take 64 :: chunks64 (l.drop 64)
termination_by l.length
decreasing_by
  simp only [List.length_drop]
  cases l with
  | nil => exact absurd rfl h
  | cons a as => simp only [List.length_cons]; omega

/-- Assemble big-endian 32-bit words from bytes. -/
def bytesToWords : List Nat → List Nat
  | b0 :: b1 :: b2 :: b3 :: rest =>
    (b0 * 0x1000000 + b1 * 0x10000 + b2 * 0x100 + b3) :: bytesToWords rest
  | _ => []

/-- Emit each 32-bit word as four big-endian bytes. -/
def wordsToBytes : List Nat → List Nat
  | [] => []
  | w :: ws =>
    (w >>> 24) % 256 :: (w >>> 16) % 256 :: (w >>> 8) % 256 :: w % 256 ::
      wordsToBytes ws

/-- Extend the 16 block words to the 64-entry SHA-256 message schedule. -/
def shaSchedule (w16 : List Nat) : Array Nat :=
  (List.range 48).foldl
    (fun w j =>
      w.push (add32
        (add32 (smallSigma1 (w.getD (j + 14) 0)) (w.getD (j + 9) 0))
        (add32 (smallSigma0 (w.getD (j + 1) 0)) (w.getD j 0))))
    w16.toArray

/-- The eight SHA-256 working variables. -/
structure Sha8 where
  a : Nat
  b : Nat
  c : Nat
  d : Nat
  e : Nat
  f : Nat
  g : Nat
  h : Nat

/-- One SHA-256 block compression. -/
def shaCompress (hs : Sha8) (w : Array Nat) : Sha8 :=
  let fin := (List.range 64).foldl
    (fun st i =>
      let t1 := add32 st.h (add32 (bigSigma1 st.e)
        (add32 (shaCh st.e st.f st.g) (add32 (shaK.getD i 0) (w.getD i 0))))
      let t2 := add32 (bigSigma0 st.a) (shaMaj st.a st.b st.c)
      Sha8.mk (add32 t1 t2) st.a st.b st.c (add32 st.d t1) st.e st.f st.g)
    hs
  Sha8.mk (add32 hs.a fin.a) (add32 hs.b fin.b) (add32 hs.c fin.c)
    (add32 hs.d fin.d) (add32 hs.e fin.e) (add32 hs.f fin.f)
    (add32 hs.g fin.g) (add32 hs.h fin.h)

/-- SHA-256 of a byte list, as 32 bytes. -/
def sha256 (msg : List Nat) : List Nat :=
  let blocks := chunks64 (shaPad msg)
  let init := Sha8.mk 1779033703 3144134277 1013904242 2773480762
    1359893119 2600822924 528734635 1541459225
  let hf := blocks.foldl
    (fun hs blk => shaCompress hs (shaSchedule (bytesToWords blk))) init
  wordsToBytes [hf.a, hf.b, hf.c, hf.d, hf.e, hf.f, hf.g, hf.h]

/-- HMAC-SHA256 (RFC 2104) of a message byte list under a key byte list. -/
def hmacSha256 (key msg : List Nat) : List Nat :=
  let k0 := if key.length > 64 then sha256 key else key
  let kp := k0 ++ List.replicate (64 - k0.length) 0
  let ipadded := kp.map (fun b => b ^^^ 0x36)
  let opadded := kp.map (fun b => b ^^^ 0x5C)
  sha256 (opadded ++ sha256 (ipadded ++ msg))

/-!
The `BinanceAuth` class of `src/routes/binance.js` (lines 307-453 of the
concatenated source). `this.apiSecret` / `this.apiKey` / `this.baseURL`
become explicit arguments, `Date.now()` an explicit `ts` argument.
-/

/-- Node `crypto.createHmac("sha256", secret).update(qs).digest("hex")`:
lowercase-hex HMAC-SHA256 of the query string keyed by the secret
(`BinanceAuth.generateSignature`). -/
def generateSignature (apiSecret queryString : String) : String :=
  hexLowerOfBytes (hmacSha256 (utf8Str apiSecret) (utf8Str queryString))

/-- One `key=encodeURIComponent(params[key])` fragment. -/
def renderPair (params : List (String × String)) (k : String) : String :=
  k ++ "=" ++ encodeURIComponent ((objGet params k).getD "")

/-- The query string built inside `createSignedParams`:
`Object.keys(params).sort().map(key => ...).join("&")`. -/
def canonicalQueryString (params : List (String × String)) : String :=
  joinAmp ((jsSortStrings (params.map Prod.fst)).map (renderPair params))

/-- The query string built inside `makeRequest` for GET requests:
`Object.keys(params).map(key => ...).join("&")` — no sort. -/
def unsortedQueryString (params : List (String × String)) : String :=
  joinAmp ((params.map Prod.fst).map (renderPair params))

/-- `BinanceAuth.createSignedParams`: set `params.timestamp = Date.now()`,
build the sorted canonical query string, sign it, and return
`{...params, signature}`. -/
def createSignedParams (apiSecret : String) (ts : Nat)
    (params : List (String × String)) : List (String × String) :=
  let withTs := jsInsert params "timestamp" (Nat.repr ts)
  let signature := generateSignature apiSecret (canonicalQueryString withTs)
  jsInsert withTs "signature" signature

/-- `BinanceAuth.getHeaders`. -/
def getHeaders (apiKey : String) : List (String × String) :=
  [("X-MBX-APIKEY", apiKey),
   ("Content-Type", "application/json"),
   ("User-Agent", "LockBay-Binance-Proxy/1.0.0")]

/-- The axios request configuration assembled by `BinanceAuth.makeRequest`
before the network call: method, final URL, headers, timeout, body. -/
structure RequestConfig where
  method : String
  url : String
  headers : List (String × String)
  timeout : Nat
  data : Option (List (String × String))
deriving DecidableEq

/-- The parameter mapping `makeRequest` transmits:
`requiresSignature ? createSignedParams(params) : params`. -/
def effectiveParams (apiSecret : String) (ts : Nat)
    (params : List (String × String)) (requiresSignature : Bool) :
    List (String × String) :=
  if requiresSignature then createSignedParams apiSecret ts params else params

/-- Request construction of `BinanceAuth.makeRequest` (lines 364-392):
sign if required, then route the parameters — `method.toLowerCase() ===
"get"` appends them to the URL as an unsorted query string, every other
method puts them in the request body (`config.data`). -/
def makeRequestConfig (apiKey baseURL apiSecret : String) (ts : Nat)
    (method endpoint : String) (params : List (String × String))
    (requiresSignature : Bool) : RequestConfig :=
  let p := effectiveParams apiSecret ts params requiresSignature
  let url := baseURL ++ endpoint
  if toLowerCase method = "get" then
    { method := method
      url := if p.map Prod.fst = [] then url
             else url ++ "?" ++ unsortedQueryString p
      headers := getHeaders apiKey
      timeout := 30000
      data := none }
  else
    { method := method
      url := url
      headers := getHeaders apiKey
      timeout := 30000
      data := some p }

/-- A constructed `BinanceAuth` client. -/
structure BinanceClient where
  apiKey : String
  apiSecret : String
  baseURL : String
deriving DecidableEq

/-- The error message thrown by the `BinanceAuth` constructor. -/
def credentialsErrMsg : String :=
  "Binance API credentials not found in environment variables"

/-- The `BinanceAuth` constructor: reads `BINANCE_API_KEY`,
`BINANCE_API_SECRET` and `BINANCE_BASE_URL` from the environment (each
possibly absent), defaults the base URL, and throws when the key or the
secret is falsy (absent or empty). -/
def binanceAuthNew (envKey envSecret envBaseURL : Option String) :
    Except String BinanceClient :=
  if jsFalsyStr envKey || jsFalsyStr envSecret then
    Except.error credentialsErrMsg
  else
    Except.ok
      { apiKey := envKey.getD ""
        apiSecret := envSecret.getD ""
        baseURL := if jsFalsyStr envBaseURL then "https://api.binance.com"
                   else envBaseURL.getD "" }

/-!
Error normalization: the `catch` block of `BinanceAuth.makeRequest`
(lines 403-418) and the `errorHandler` middleware
(`src/unnamed/part_000`, the global express error handler).
-/

/-- A JS upstream error code: a number such as `-1021`, or a string such
as `"REQUEST_FAILED"`. -/
inductive ErrCode where
  | num (n : Int)
  | str (s : String)
deriving DecidableEq

/-- JS truthiness of an error code (`0` and `""` are falsy). -/
def codeTruthy : ErrCode → Bool
  | ErrCode.num n => n != 0
  | ErrCode.str s => !s.isEmpty

/-- An upstream error body `{code, msg}` as parsed from the response
(either field may be absent). -/
structure UpstreamData where
  msg : Option String
  code : Option ErrCode
deriving DecidableEq

/-- The `response` field of an axios error: upstream status and parsed
body (the body may be absent). -/
structure AxiosResponse where
  status : Nat
  data : Option UpstreamData
deriving DecidableEq

/-- An axios rejection: transport failures carry a symptom code
(`ECONNREFUSED`, `ENOTFOUND`, `ECONNABORTED`, ...) and no `response`;
upstream non-2xx rejections carry a `response`. -/
structure AxiosError where
  message : String
  code : Option String
  response : Option AxiosResponse
deriving DecidableEq

/-- The plain object thrown by `makeRequest`'s catch block:
`{success: false, error: ..., status: ..., code: ...}`. -/
structure ThrownError where
  error : UpstreamData
  status : Nat
  code : ErrCode
deriving DecidableEq

/-- The catch block of `BinanceAuth.makeRequest`: wraps an axios failure
as `{success: false, error: error.response?.data || {msg: error.message},
status: error.response?.status || 500,
code: error.response?.data?.code || "REQUEST_FAILED"}`. -/
def makeRequestCatch (e : AxiosError) : ThrownError :=
  { error := (e.response.bind (fun r => r.data)).getD
      { msg := some e.message, code := none }
    status := jsOrNat (e.response.map (fun r => r.status)) 500
    code :=
      match e.response.bind (fun r => r.data) with
      | some d =>
        match d.code with
        | some c => if codeTruthy c then c else ErrCode.str "REQUEST_FAILED"
        | none => ErrCode.str "REQUEST_FAILED"
      | none => ErrCode.str "REQUEST_FAILED" }

/-- The duck-typed error value inspected by the `errorHandler` middleware:
any of the fields it reads may be absent (`none` models `undefined`). -/
structure JsError where
  message : Option String := none
  code : Option ErrCode := none
  response : Option AxiosResponse := none
  status : Option Nat := none
  error : Option UpstreamData := none
deriving DecidableEq

/-- The thrown object of `makeRequest` as seen by `errorHandler`: it has
`code`, `status` and `error` properties but no `message` and no
`response`. -/
def thrownToJsError (t : ThrownError) : JsError :=
  { message := none
    code := some t.code
    response := none
    status := some t.status
    error := some t.error }

/-- The JSON body rendered by `errorHandler` (the run-time
`new Date().toISOString()` timestamp field is outside the model). -/
structure ErrorResponse where
  status : Nat
  error : String
  message : Option String
  code : Option ErrCode
deriving DecidableEq

/-- Whether `err.code === "ECONNREFUSED" || err.code === "ENOTFOUND"`
(strict string equality, so a numeric code never matches). -/
def isConnectionSymptom : Option ErrCode → Bool
  | some (ErrCode.str s) => s = "ECONNREFUSED" || s = "ENOTFOUND"
  | _ => false

/-- The global express `errorHandler` middleware: a `response.data`-bearing
error renders the upstream `{code, msg}` (with fallbacks `UNKNOWN_ERROR`
and `err.message`) under the upstream status; `ECONNREFUSED`/`ENOTFOUND`
render 503 `CONNECTION_ERROR`; everything else renders
`err.status || 500` with a generic message (`err.message` unless
production). -/
def errorHandler (isProd : Bool) (err : JsError) : ErrorResponse :=
  match err.response with
  | some r =>
    match r.data with
    | some d =>
      { status := jsOrNat (some r.status) 500
        error := "Binance API Error"
        message := jsSelStr d.msg err.message
        code := some (match d.code with
          | some c => if codeTruthy c then c else ErrCode.str "UNKNOWN_ERROR"
          | none => ErrCode.str "UNKNOWN_ERROR") }
    | none =>
      if isConnectionSymptom err.code then
        { status := 503
          error := "Service Unavailable"
          message := some "Unable to connect to Binance API"
          code := some (ErrCode.str "CONNECTION_ERROR") }
      else
        { status := jsOrNat err.status 500
          error := "Internal Server Error"
          message := if isProd then some "Something went wrong"
                     else err.message
          code := none }
  | none =>
    if isConnectionSymptom err.code then
      { status := 503
        error := "Service Unavailable"
        message := some "Unable to connect to Binance API"
        code := some (ErrCode.str "CONNECTION_ERROR") }
    else
      { status := jsOrNat err.status 500
        error := "Internal Server Error"
        message := if isProd then some "Something went wrong"
                   else err.message
        code := none }

/-! Helper lemmas about the JS-object model. -/

theorem objGet_eq_none_of_not_mem {l : List (String × String)} {k : String}
    (h : k ∉ l.map Prod.fst) : objGet l k = none := by
  induction l with
  | nil => rfl
  | cons p rest ih =>
    obtain ⟨a, v⟩ := p
    simp only [List.map_cons, List.mem_cons, not_or] at h
    have ha : ¬(a = k) := fun he => h.1 he.symm
    simp only [objGet, if_neg ha]
    exact ih h.2

theorem objGet_isSome_of_mem {l : List (String × String)} {k : String}
    (h : k ∈ l.map Prod.fst) : (objGet l k).isSome := by
  induction l with
  | nil => simp at h
  | cons p rest ih =>
    obtain ⟨a, v⟩ := p
    by_cases he : a = k
    · simp [objGet, he]
    · simp only [List.map_cons, List.mem_cons] at h
      have hm : k ∈ rest.map Prod.fst :=
        h.resolve_left (fun hk => he hk.symm)
      simp only [objGet, if_neg he]
      exact ih hm

theorem jsInsert_of_not_mem {l : List (String × String)} {k v : String}
    (h : k ∉ l.map Prod.fst) : jsInsert l k v = l ++ [(k, v)] := by
  simp [jsInsert, objGet_eq_none_of_not_mem h]

theorem objGet_map_update {l : List (String × String)} {k : String}
    (v : String) (hs : (objGet l k).isSome) :
    objGet (l.map (fun kv => if kv.1 = k then (k, v) else kv)) k = some v := by
  induction l with
  | nil => simp [objGet] at hs
  | cons p rest ih =>
    obtain ⟨a, w⟩ := p
    by_cases he : a = k
    · subst he
      simp only [List.map_cons]
      split <;> simp_all [objGet]
    · simp only [objGet, if_neg he] at hs
      simp only [List.map_cons]
      rw [if_neg (show ¬(((a, w) : String × String).1 = k) from he)]
      simp only [objGet, if_neg he]
      exact ih hs

theorem objGet_append_self {l : List (String × String)} {k : String}
    (v : String) (hn : objGet l k = none) :
    objGet (l ++ [(k, v)]) k = some v := by
  induction l with
  | nil => simp [objGet]
  | cons p rest ih =>
    obtain ⟨a, w⟩ := p
    by_cases he : a = k
    · simp [objGet, he] at hn
    · simp only [objGet, if_neg he] at hn
      simp only [List.cons_append, objGet, if_neg he]
      exact ih hn

theorem objGet_jsInsert_self (l : List (String × String)) (k v : String) :
    objGet (jsInsert l k v) k = some v := by
  unfold jsInsert
  by_cases hs : (objGet l k).isSome
  · simp only [hs, if_true]
    exact objGet_map_update v hs
  · have hn : objGet l k = none := Option.not_isSome_iff_eq_none.1 hs
    simp only [hs, Bool.false_eq_true, if_false]
    exact objGet_append_self v hn

theorem map_fst_jsInsert_not_mem {l : List (String × String)} {k v : String}
    (h : k ∉ l.map Prod.fst) :
    (jsInsert l k v).map Prod.fst = l.map Prod.fst ++ [k] := by
  rw [jsInsert_of_not_mem h]; simp

theorem objGet_append_left {l₁ l₂ : List (String × String)} {k : String}
    (h : k ∈ l₁.map Prod.fst) : objGet (l₁ ++ l₂) k = objGet l₁ k := by
  induction l₁ with
  | nil => simp at h
  | cons p rest ih =>
    obtain ⟨a, v⟩ := p
    by_cases he : a = k
    · simp [objGet, he]
    · simp only [List.map_cons, List.mem_cons] at h
      have hm : k ∈ rest.map Prod.fst :=
        h.resolve_left (fun hk => he hk.symm)
      simp only [List.cons_append, objGet, if_neg he]
      exact ih hm

/-! Helper lemmas about the JS string sort. -/

theorem natListLt_asymm :
    ∀ {a b : List Nat}, natListLt a b = true → natListLt b a = false := by
  intro a
  induction a with
  | nil => intro b h; cases b <;> simp_all [natListLt]
  | cons x xs ih =>
    intro b h
    cases b with
    | nil => simp [natListLt] at h
    | cons y ys =>
      simp only [natListLt] at h ⊢
      by_cases hxy : x < y
      · simp [if_neg (Nat.lt_asymm hxy), if_pos hxy]
      · by_cases hyx : y < x
        · simp [if_neg hxy, if_pos hyx] at h
        · simp only [if_neg hxy, if_neg hyx] at h ⊢
          exact ih h

theorem jsStrLe_total (a b : String) :
    jsStrLe a b = true ∨ jsStrLe b a = true := by
  unfold jsStrLe
  by_cases h : natListLt (utf16Str b) (utf16Str a) = true
  · right; simp [natListLt_asymm h]
  · left; simp [Bool.not_eq_true] at h; simp [h]

theorem insertKey_perm (x : String) (l : List String) :
    (insertKey x l).Perm (x :: l) := by
  induction l with
  | nil => exact List.Perm.refl _
  | cons y ys ih =>
    simp only [insertKey]
    by_cases h : jsStrLe x y = true
    · simp [h]
    · simp only [h, if_false]
      exact (ih.cons y).trans (List.Perm.swap x y ys)

theorem jsSortStrings_perm (l : List String) : (jsSortStrings l).Perm l := by
  induction l with
  | nil => exact List.Perm.refl _
  | cons x xs ih =>
    exact (insertKey_perm x (jsSortStrings xs)).trans (ih.cons x)

theorem chain'_insertKey {l : List String} {x : String}
    (h : List.Chain' (fun a b => jsStrLe a b = true) l) :
    List.Chain' (fun a b => jsStrLe a b = true) (insertKey x l) := by
  induction l with
  | nil => simp [insertKey]
  | cons y ys ih =>
    simp only [insertKey]
    by_cases hxy : jsStrLe x y = true
    · rw [if_pos hxy]
      exact h.cons hxy
    · rw [if_neg hxy]
      have hyx : jsStrLe y x = true :=
        (jsStrLe_total x y).resolve_left hxy
      rcases List.chain'_cons'.1 h with ⟨hhd, htl⟩
      refine List.chain'_cons'.2 ⟨?_, ih htl⟩
      intro z hz
      rw [Option.mem_def] at hz
      cases ys with
      | nil =>
        simp only [insertKey, List.head?_cons, Option.some.injEq] at hz
        subst hz; exact hyx
      | cons w ws =>
        simp only [insertKey] at hz
        by_cases hxw : jsStrLe x w = true
        · rw [if_pos hxw] at hz
          simp only [List.head?_cons, Option.some.injEq] at hz
          subst hz; exact hyx
        · rw [if_neg hxw] at hz
          simp only [List.head?_cons, Option.some.injEq] at hz
          subst hz; exact hhd w (by simp)

theorem chain'_jsSortStrings (l : List String) :
    List.Chain' (fun a b => jsStrLe a b = true) (jsSortStrings l) := by
  induction l with
  | nil => simp [jsSortStrings]
  | cons x xs ih => exact chain'_insertKey ih

/-! Helper lemmas about `joinAmp` lengths. -/

theorem joinAmp_cons_length (x : String) (l : List String) :
    (joinAmp (x :: l)).length =
      x.length + (l.map (fun s => s.length + 1)).sum := by
  induction l generalizing x with
  | nil => simp [joinAmp]
  | cons y ys ih =>
    simp only [joinAmp, String.length_append, ih y, List.map_cons,
      List.sum_cons]
    have h1 : ("&" : String).length = 1 := rfl
    omega

theorem joinAmp_length_of_ne_nil {l : List String} (h : l ≠ []) :
    (joinAmp l).length + 1 = (l.map (fun s => s.length + 1)).sum := by
  cases l with
  | nil => exact absurd rfl h
  | cons x xs =>
    rw [joinAmp_cons_length, List.map_cons, List.sum_cons]
    omega

/-! Helper lemmas about the bytes produced by the hash pipeline. -/

theorem wordsToBytes_lt (ws : List Nat) : ∀ b ∈ wordsToBytes ws, b < 256 := by
  induction ws with
  | nil => simp [wordsToBytes]
  | cons w rest ih =>
    intro b hb
    simp only [wordsToBytes, List.mem_cons] at hb
    rcases hb with h | h | h | h | h
    all_goals first
      | (subst h; exact Nat.mod_lt _ (by norm_num))
      | (exact ih b h)

theorem sha256_bytes_lt (msg : List Nat) : ∀ b ∈ sha256 msg, b < 256 := by
  intro b hb
  exact wordsToBytes_lt _ b hb

theorem hmacSha256_bytes_lt (key msg : List Nat) :
    ∀ b ∈ hmacSha256 key msg, b < 256 := by
  intro b hb
  exact sha256_bytes_lt _ b hb

/-- The sixteen lowercase hex digits. -/
def lowHexChars : List Char := "0123456789abcdef".data

theorem hexLo_mem_of_lt {n : Nat} (h : n < 16) : hexLo n ∈ lowHexChars := by
  interval_cases n <;> decide

theorem hexLowerOfBytes_mem {l : List Nat} (hl : ∀ b ∈ l, b < 256) :
    ∀ c ∈ (hexLowerOfBytes l).data, c ∈ lowHexChars := by
  unfold hexLowerOfBytes
  induction l with
  | nil => simp
  | cons b rest ih =>
    intro c hc
    simp only [List.foldr_cons, List.mem_cons] at hc
    have hb : b < 256 := hl b (by simp)
    rcases hc with hc | hc | hc
    · exact hc ▸ hexLo_mem_of_lt (by omega)
    · exact hc ▸ hexLo_mem_of_lt (Nat.mod_lt _ (by norm_num))
    · exact ih (fun x hx => hl x (List.mem_cons_of_mem _ hx)) c hc

/-! Further facts feeding the claim theorems. -/

theorem map_fst_jsInsert_subset (l : List (String × String)) (k v : String) :
    (jsInsert l k v).map Prod.fst = l.map Prod.fst
    ∨ (jsInsert l k v).map Prod.fst = l.map Prod.fst ++ [k] := by
  unfold jsInsert
  by_cases hs : (objGet l k).isSome
  · left
    simp only [hs, if_true]
    rw [List.map_map]
    refine List.map_congr_left ?_
    intro kv _
    by_cases he : kv.1 = k
    · simp [Function.comp, he]
    · simp [Function.comp, he]
  · right
    simp only [hs, Bool.false_eq_true, if_false]
    simp

theorem not_mem_map_fst_jsInsert {l : List (String × String)}
    {k v j : String} (hj : j ∉ l.map Prod.fst) (hjk : j ≠ k) :
    j ∉ (jsInsert l k v).map Prod.fst := by
  rcases map_fst_jsInsert_subset l k v with h | h <;> rw [h] <;> simp_all

/-- The unsorted GET-transmission rendering of a mapping that ends with an
appended signature pair always differs from the sorted canonical rendering
of the mapping without that pair: the former is strictly longer. -/
theorem unsorted_ne_canonical (withTs : List (String × String)) (s : String)
    (hne : withTs.map Prod.fst ≠ []) :
    unsortedQueryString (withTs ++ [("signature", s)])
      ≠ canonicalQueryString withTs := by
  intro heq
  have hlen := congrArg String.length heq
  have hmapfst : (withTs ++ [("signature", s)]).map Prod.fst
      = withTs.map Prod.fst ++ ["signature"] := by simp
  have hrender : ∀ k ∈ withTs.map Prod.fst,
      renderPair (withTs ++ [("signature", s)]) k = renderPair withTs k := by
    intro k hk
    unfold renderPair
    rw [objGet_append_left hk]
  have hmapeq : (withTs.map Prod.fst).map
        (renderPair (withTs ++ [("signature", s)]))
      = (withTs.map Prod.fst).map (renderPair withTs) :=
    List.map_congr_left hrender
  have hL : (unsortedQueryString (withTs ++ [("signature", s)])).length + 1
      = (((withTs.map Prod.fst).map (renderPair withTs)).map
          (fun t => t.length + 1)).sum
        + ((renderPair (withTs ++ [("signature", s)]) "signature").length
            + 1) := by
    unfold unsortedQueryString
    rw [hmapfst, List.map_append, hmapeq,
      joinAmp_length_of_ne_nil (by simp), List.map_append, List.sum_append]
    simp
  have hsortne : (jsSortStrings (withTs.map Prod.fst)).map (renderPair withTs)
      ≠ [] := by
    have hl0 : (jsSortStrings (withTs.map Prod.fst)).length
        = (withTs.map Prod.fst).length :=
      (jsSortStrings_perm (withTs.map Prod.fst)).length_eq
    intro h0
    rw [List.map_eq_nil_iff] at h0
    rw [h0] at hl0
    exact hne (List.length_eq_zero.1 hl0.symm)
  have hperm : ((jsSortStrings (withTs.map Prod.fst)).map
        (renderPair withTs)).Perm
      ((withTs.map Prod.fst).map (renderPair withTs)) :=
    (jsSortStrings_perm (withTs.map Prod.fst)).map _
  have hR : (canonicalQueryString withTs).length + 1
      = (((withTs.map Prod.fst).map (renderPair withTs)).map
          (fun t => t.length + 1)).sum := by
    unfold canonicalQueryString
    rw [joinAmp_length_of_ne_nil hsortne]
    exact (hperm.map (fun t => t.length + 1)).sum_eq
  omega

/-!
The claim theorems.
-/

/-- Claim C1 (confirmed): for every parameter mapping and secret, the
signed canonical string is the render of the keys of params plus the
injected timestamp, sorted ascending in the ordinal string order used by
`Object.keys(...).sort()`, each rendered as `key=encodeURIComponent(value)`
joined with `&`; the stored signature equals the lowercase hex HMAC-SHA256
of exactly that string keyed by the secret. The Perm and Chain' conjuncts
state that the rendered key list is the ascending reordering of the keys;
the final conjunct states that the hex encoding is lowercase. -/
theorem claim_C1_canonical_string_and_signature
    (apiSecret : String) (ts : Nat) (params : List (String × String)) :
    objGet (createSignedParams apiSecret ts params) "signature"
      = some (generateSignature apiSecret
          (canonicalQueryString (jsInsert params "timestamp" (Nat.repr ts))))
    ∧ canonicalQueryString (jsInsert params "timestamp" (Nat.repr ts))
      = joinAmp ((jsSortStrings
            ((jsInsert params "timestamp" (Nat.repr ts)).map Prod.fst)).map
          (renderPair (jsInsert params "timestamp" (Nat.repr ts))))
    ∧ (jsSortStrings
        ((jsInsert params "timestamp" (Nat.repr ts)).map Prod.fst)).Perm
      ((jsInsert params "timestamp" (Nat.repr ts)).map Prod.fst)
    ∧ List.Chain' (fun a b => jsStrLe a b = true)
      (jsSortStrings ((jsInsert params "timestamp" (Nat.repr ts)).map Prod.fst))
    ∧ generateSignature apiSecret
        (canonicalQueryString (jsInsert params "timestamp" (Nat.repr ts)))
      = hexLowerOfBytes (hmacSha256 (utf8Str apiSecret)
          (utf8Str (canonicalQueryString
            (jsInsert params "timestamp" (Nat.repr ts)))))
    ∧ ∀ c ∈ (generateSignature apiSecret
        (canonicalQueryString
          (jsInsert params "timestamp" (Nat.repr ts)))).data,
        c ∈ lowHexChars := by
  refine ⟨?_, rfl, jsSortStrings_perm _, chain'_jsSortStrings _, rfl, ?_⟩
  · unfold createSignedParams
    exact objGet_jsInsert_self _ _ _
  · intro c hc
    exact hexLowerOfBytes_mem (hmacSha256_bytes_lt _ _) c hc

/-- Claim C2 (confirmed): building signed parameters injects the timestamp
first, computes the canonical string over exactly params plus timestamp (a
mapping whose sorted, rendered key list does not contain `signature`), and
only then appends the computed signature as the last pair of the mapping. -/
theorem claim_C2_sign_then_append
    (apiSecret : String) (ts : Nat) (params : List (String × String))
    (hsig : "signature" ∉ params.map Prod.fst) :
    createSignedParams apiSecret ts params
      = jsInsert params "timestamp" (Nat.repr ts)
        ++ [("signature", generateSignature apiSecret
              (canonicalQueryString
                (jsInsert params "timestamp" (Nat.repr ts))))]
    ∧ "signature" ∉ jsSortStrings
        ((jsInsert params "timestamp" (Nat.repr ts)).map Prod.fst) := by
  have hsig' : "signature"
      ∉ (jsInsert params "timestamp" (Nat.repr ts)).map Prod.fst :=
    not_mem_map_fst_jsInsert hsig (by decide)
  constructor
  · unfold createSignedParams
    exact jsInsert_of_not_mem hsig'
  · intro hmem
    exact hsig'
      (((jsSortStrings_perm _).mem_iff).1 hmem)

/-- Witness for C2 at a concrete call: the public price query parameters
of the proxy, secret `S`, clock 1000. -/
theorem claim_C2_sign_then_append_witness :
    createSignedParams "S" 1000 [("symbol", "BTCUSDT")]
      = jsInsert [("symbol", "BTCUSDT")] "timestamp" (Nat.repr 1000)
        ++ [("signature", generateSignature "S"
              (canonicalQueryString
                (jsInsert [("symbol", "BTCUSDT")] "timestamp"
                  (Nat.repr 1000))))]
    ∧ "signature" ∉ jsSortStrings
        ((jsInsert [("symbol", "BTCUSDT")] "timestamp"
          (Nat.repr 1000)).map Prod.fst) :=
  claim_C2_sign_then_append "S" 1000 [("symbol", "BTCUSDT")] (by decide)

/-- Claim C3 counterexample: a DELETE request does not carry its
parameters in the URL query string — `makeRequest` routes every non-GET
method to the JSON body, so for this concrete DELETE call the parameter
travels in `config.data` and the URL has no query string, contradicting
the claimed GET/DELETE → query-string routing. -/
theorem claim_C3_counterexample :
    (makeRequestConfig "k" "https://api.binance.com" "s" 0 "DELETE"
      "/api/v3/order" [("symbol", "BTCUSDT")] false).data
      = some [("symbol", "BTCUSDT")]
    ∧ (makeRequestConfig "k" "https://api.binance.com" "s" 0 "DELETE"
      "/api/v3/order" [("symbol", "BTCUSDT")] false).url
      = "https://api.binance.com/api/v3/order" :=
  ⟨rfl, rfl⟩

/-- Claim C3 as amended: only a GET call carries its parameters in the URL
query string; every other method (POST, PUT and also DELETE) carries them
in the JSON body with an unmodified URL; parameters are never split across
both locations. -/
theorem claim_C3_amended_routing
    (apiKey baseURL apiSecret : String) (ts : Nat)
    (method endpoint : String) (params : List (String × String))
    (requiresSignature : Bool) :
    (makeRequestConfig apiKey baseURL apiSecret ts method endpoint params
        requiresSignature).data
      = (if toLowerCase method = "get" then none
         else some (effectiveParams apiSecret ts params requiresSignature))
    ∧ (makeRequestConfig apiKey baseURL apiSecret ts method endpoint params
        requiresSignature).url
      = (if toLowerCase method = "get" then
          (if (effectiveParams apiSecret ts params
                requiresSignature).map Prod.fst = []
           then baseURL ++ endpoint
           else baseURL ++ endpoint ++ "?"
             ++ unsortedQueryString
                  (effectiveParams apiSecret ts params requiresSignature))
         else baseURL ++ endpoint) := by
  unfold makeRequestConfig
  by_cases hm : toLowerCase method = "get" <;> simp [hm]

/-- Claim C4 counterexample: the built request carries no header named
`X-API-KEY` — for this concrete call the header lookup comes back empty,
because the code sets the upstream-mandated name `X-MBX-APIKEY` instead. -/
theorem claim_C4_counterexample :
    objGet (makeRequestConfig "key1" "https://api.binance.com" "s" 0 "GET"
      "/api/v3/time" [] false).headers "X-API-KEY" = none :=
  rfl

/-- Claim C4 as amended: every outbound request carries exactly the three
headers `X-MBX-APIKEY` (set to the credential key), `Content-Type:
application/json`, and the identifying `User-Agent:
LockBay-Binance-Proxy/1.0.0`. -/
theorem claim_C4_amended_headers
    (apiKey baseURL apiSecret : String) (ts : Nat)
    (method endpoint : String) (params : List (String × String))
    (requiresSignature : Bool) :
    (makeRequestConfig apiKey baseURL apiSecret ts method endpoint params
        requiresSignature).headers = getHeaders apiKey
    ∧ objGet (getHeaders apiKey) "X-MBX-APIKEY" = some apiKey
    ∧ objGet (getHeaders apiKey) "Content-Type" = some "application/json"
    ∧ objGet (getHeaders apiKey) "User-Agent"
        = some "LockBay-Binance-Proxy/1.0.0"
    ∧ objGet (getHeaders apiKey) "X-API-KEY" = none := by
  refine ⟨?_, rfl, rfl, rfl, rfl⟩
  unfold makeRequestConfig
  by_cases hm : toLowerCase method = "get" <;> simp [hm]

/-- Claim C8 (confirmed): with `requiresSignature = false` the parameter
mapping passes through unmodified — the transmitted mapping is exactly the
original one, so (under the given absence hypotheses) neither a
`timestamp` nor a `signature` key appears in the body or in the query
string of the built request, and all original parameters are preserved. -/
theorem claim_C8_unsigned_passthrough
    (apiKey baseURL apiSecret : String) (ts : Nat)
    (method endpoint : String) (params : List (String × String))
    (hts : "timestamp" ∉ params.map Prod.fst)
    (hsig : "signature" ∉ params.map Prod.fst) :
    effectiveParams apiSecret ts params false = params
    ∧ "timestamp" ∉ (effectiveParams apiSecret ts params false).map Prod.fst
    ∧ "signature" ∉ (effectiveParams apiSecret ts params false).map Prod.fst
    ∧ (makeRequestConfig apiKey baseURL apiSecret ts method endpoint params
        false).data
      = (if toLowerCase method = "get" then none else some params)
    ∧ (makeRequestConfig apiKey baseURL apiSecret ts method endpoint params
        false).url
      = (if toLowerCase method = "get" then
          (if params.map Prod.fst = [] then baseURL ++ endpoint
           else baseURL ++ endpoint ++ "?" ++ unsortedQueryString params)
         else baseURL ++ endpoint) := by
  refine ⟨rfl, hts, hsig, ?_, ?_⟩ <;>
    · unfold makeRequestConfig
      by_cases hm : toLowerCase method = "get" <;> simp [hm, effectiveParams]

/-- Witness for C8: the public price query of the proxy
(`GET /api/v3/ticker/price` with `{symbol}` and signing disabled). -/
theorem claim_C8_unsigned_passthrough_witness :
    effectiveParams "s" 1000 [("symbol", "BTCUSDT")] false
      = [("symbol", "BTCUSDT")]
    ∧ "timestamp"
        ∉ (effectiveParams "s" 1000 [("symbol", "BTCUSDT")] false).map
            Prod.fst
    ∧ "signature"
        ∉ (effectiveParams "s" 1000 [("symbol", "BTCUSDT")] false).map
            Prod.fst
    ∧ (makeRequestConfig "k" "https://api.binance.com" "s" 1000 "GET"
        "/api/v3/ticker/price" [("symbol", "BTCUSDT")] false).data
      = (if toLowerCase "GET" = "get" then none
         else some [("symbol", "BTCUSDT")])
    ∧ (makeRequestConfig "k" "https://api.binance.com" "s" 1000 "GET"
        "/api/v3/ticker/price" [("symbol", "BTCUSDT")] false).url
      = (if toLowerCase "GET" = "get" then
          (if ([("symbol", "BTCUSDT")] : List (String × String)).map
                Prod.fst = []
           then "https://api.binance.com" ++ "/api/v3/ticker/price"
           else "https://api.binance.com" ++ "/api/v3/ticker/price" ++ "?"
             ++ unsortedQueryString [("symbol", "BTCUSDT")])
         else "https://api.binance.com" ++ "/api/v3/ticker/price") :=
  claim_C8_unsigned_passthrough "k" "https://api.binance.com" "s" 1000
    "GET" "/api/v3/ticker/price" [("symbol", "BTCUSDT")]
    (by decide) (by decide)

/-- Claim C9 (confirmed): constructing the client with a falsy (absent or
empty) API key or API secret throws the fatal credentials error, and a
successfully constructed client always holds the non-falsy key and secret
it was given — construction never silently yields a client that could
sign incorrectly. -/
theorem claim_C9_constructor_fails_loud
    (envKey envSecret envBaseURL : Option String) :
    ((jsFalsyStr envKey || jsFalsyStr envSecret) = true →
      binanceAuthNew envKey envSecret envBaseURL
        = Except.error credentialsErrMsg)
    ∧ (∀ c, binanceAuthNew envKey envSecret envBaseURL = Except.ok c →
        jsFalsyStr envKey = false ∧ jsFalsyStr envSecret = false
        ∧ c.apiKey = envKey.getD "" ∧ c.apiSecret = envSecret.getD "") := by
  constructor
  · intro h
    unfold binanceAuthNew
    rw [if_pos h]
  · intro c hc
    unfold binanceAuthNew at hc
    by_cases h : (jsFalsyStr envKey || jsFalsyStr envSecret) = true
    · rw [if_pos h] at hc
      exact absurd hc (by simp)
    · rw [if_neg h] at hc
      simp only [Bool.or_eq_true, not_or] at h
      have hrc := Except.ok.inj hc
      subst hrc
      exact ⟨by simpa using h.1, by simpa using h.2, rfl, rfl⟩

/-- Witness for C9: a missing `BINANCE_API_KEY` aborts construction with
the fatal credentials error. -/
theorem claim_C9_constructor_fails_loud_witness :
    binanceAuthNew none (some "secret123") none
      = Except.error credentialsErrMsg :=
  (claim_C9_constructor_fails_loud none (some "secret123") none).1
    (by decide)

/-- The upstream fixture of claim C5: a 400 response whose body is
`{code: -1021, msg: "Timestamp outside recvWindow"}`, as axios presents it
to the catch block of `makeRequest`. -/
def upstream400 : AxiosError :=
  { message := "Request failed with status code 400"
    code := some "ERR_BAD_REQUEST"
    response := some
      { status := 400
        data := some
          { msg := some "Timestamp outside recvWindow"
            code := some (ErrCode.num (-1021)) } } }

/-- Claim C5 (code bug): at the claim's own fixture the catch block of
`makeRequest` does capture status 400, code -1021 and the upstream msg in
the object it throws — but the thrown object has no `response` property,
so the `errorHandler` branch written for upstream errors (the one with the
`UNKNOWN_ERROR` fallback) never fires on it, and the caller-visible
normalization is the generic `Internal Server Error` body that carries
neither the upstream code nor the upstream msg, contradicting the claimed
`UpstreamError{statusCode: 400, code: -1021, message: ...}`. -/
theorem claim_C5_upstream_error_dropped :
    (makeRequestCatch upstream400).status = 400
    ∧ (makeRequestCatch upstream400).code = ErrCode.num (-1021)
    ∧ (makeRequestCatch upstream400).error.msg
        = some "Timestamp outside recvWindow"
    ∧ errorHandler false (thrownToJsError (makeRequestCatch upstream400))
      = { status := 400, error := "Internal Server Error",
          message := none, code := none } :=
  ⟨rfl, rfl, rfl, rfl⟩

/-- The transport fixture of claim C6: axios raising connection refused —
symptom code `ECONNREFUSED`, no response — as the catch block of
`makeRequest` receives it. -/
def connRefused : AxiosError :=
  { message := "connect ECONNREFUSED 127.0.0.1:443"
    code := some "ECONNREFUSED"
    response := none }

/-- Claim C6 (code bug): the `errorHandler` network-errors branch does
implement the claimed Unreachable classification — fed a bare
`ECONNREFUSED` error directly it yields the 503 `Service
Unavailable`/`CONNECTION_ERROR` result (last conjunct) — but the program
never delivers such an error to it: the catch block of `makeRequest`
replaces the symptom code with `REQUEST_FAILED`, defaults the status to
500, and throws an object with no `response` property, so a real
connection-refused outcome reaches `errorHandler` in that rewrapped shape
and normalizes to the generic 500 `Internal Server Error` result, not to
the claimed Unreachable kind. -/
theorem claim_C6_unreachable_dropped :
    (makeRequestCatch connRefused).code = ErrCode.str "REQUEST_FAILED"
    ∧ (makeRequestCatch connRefused).status = 500
    ∧ (makeRequestCatch connRefused).error.msg
        = some "connect ECONNREFUSED 127.0.0.1:443"
    ∧ errorHandler false (thrownToJsError (makeRequestCatch connRefused))
      = { status := 500, error := "Internal Server Error",
          message := none, code := none }
    ∧ errorHandler false
        { message := some "connect ECONNREFUSED 127.0.0.1:443",
          code := some (ErrCode.str "ECONNREFUSED") }
      = { status := 503, error := "Service Unavailable",
          message := some "Unable to connect to Binance API",
          code := some (ErrCode.str "CONNECTION_ERROR") } :=
  ⟨rfl, rfl, rfl, rfl, rfl⟩

/-- The shape axios gives a timed-out call: symptom code `ECONNABORTED`,
no response. -/
def timeoutAborted : JsError :=
  { message := some "timeout of 30000ms exceeded"
    code := some (ErrCode.str "ECONNABORTED") }

/-- An unknown transport failure with the same message, for comparison. -/
def unknownFailure : JsError :=
  { message := some "timeout of 30000ms exceeded" }

/-- Claim C7 counterexample: a timed-out call does not surface under a
distinct Timeout classification — the normalizer maps the timeout symptom
(`ECONNABORTED`) to exactly the same response as a symptomless unknown
failure (generic 500 `Internal Server Error`, no code field), so no kind
distinct from the other transport error kinds exists in the code. -/
theorem claim_C7_counterexample :
    errorHandler false timeoutAborted = errorHandler false unknownFailure
    ∧ (errorHandler false timeoutAborted).error = "Internal Server Error"
    ∧ (errorHandler false timeoutAborted).status = 500
    ∧ (errorHandler false timeoutAborted).code = none :=
  ⟨rfl, rfl, rfl, rfl⟩

/-- Claim C7 as amended: every outbound request is built with the fixed
30000 ms timeout (so a call cannot hang indefinitely), and a timed-out
call (symptom `ECONNABORTED`, no response) surfaces through the generic
default classification — status `err.status || 500`, `Internal Server
Error` — identical to unknown transport errors rather than as a distinct
Timeout kind. -/
theorem claim_C7_amended_timeout
    (apiKey baseURL apiSecret : String) (ts : Nat)
    (method endpoint : String) (params : List (String × String))
    (requiresSignature isProd : Bool) (msg : Option String)
    (st : Option Nat) :
    (makeRequestConfig apiKey baseURL apiSecret ts method endpoint params
        requiresSignature).timeout = 30000
    ∧ errorHandler isProd
        { message := msg, code := some (ErrCode.str "ECONNABORTED"),
          status := st }
      = { status := jsOrNat st 500, error := "Internal Server Error",
          message := if isProd then some "Something went wrong" else msg,
          code := none } := by
  constructor
  · unfold makeRequestConfig
    by_cases hm : toLowerCase method = "get" <;> simp [hm]
  · rfl

/-- Claim C10 (confirmed): for a signed GET request the transmitted query
string renders the mapping's keys in insertion order — original params
first, then `timestamp`, then `signature` — without sorting, and this
transmitted string always differs from the sorted canonical string that
was signed (the transmitted string additionally carries the signature
pair), so in particular the two differ for every such mapping and the
claim's "equals only when the insertion order is already sorted" holds
vacuously. -/
theorem claim_C10_get_query_insertion_order
    (apiKey baseURL apiSecret : String) (ts : Nat) (endpoint : String)
    (params : List (String × String))
    (hts : "timestamp" ∉ params.map Prod.fst)
    (hsig : "signature" ∉ params.map Prod.fst) :
    (createSignedParams apiSecret ts params).map Prod.fst
      = params.map Prod.fst ++ ["timestamp", "signature"]
    ∧ (makeRequestConfig apiKey baseURL apiSecret ts "GET" endpoint params
        true).url
      = baseURL ++ endpoint ++ "?"
        ++ unsortedQueryString (createSignedParams apiSecret ts params)
    ∧ unsortedQueryString (createSignedParams apiSecret ts params)
      ≠ canonicalQueryString (jsInsert params "timestamp" (Nat.repr ts)) := by
  have hwt : jsInsert params "timestamp" (Nat.repr ts)
      = params ++ [("timestamp", Nat.repr ts)] := jsInsert_of_not_mem hts
  have hkeys : (jsInsert params "timestamp" (Nat.repr ts)).map Prod.fst
      = params.map Prod.fst ++ ["timestamp"] := by rw [hwt]; simp
  have hsig' : "signature"
      ∉ (jsInsert params "timestamp" (Nat.repr ts)).map Prod.fst :=
    not_mem_map_fst_jsInsert hsig (by decide)
  have hsp : createSignedParams apiSecret ts params
      = jsInsert params "timestamp" (Nat.repr ts)
        ++ [("signature", generateSignature apiSecret
              (canonicalQueryString
                (jsInsert params "timestamp" (Nat.repr ts))))] := by
    unfold createSignedParams
    exact jsInsert_of_not_mem hsig'
  have hspkeys : (createSignedParams apiSecret ts params).map Prod.fst
      = params.map Prod.fst ++ ["timestamp", "signature"] := by
    rw [hsp, List.map_append, hkeys]
    simp
  refine ⟨hspkeys, ?_, ?_⟩
  · have hget : toLowerCase "GET" = "get" := rfl
    have hne : (createSignedParams apiSecret ts params).map Prod.fst
        ≠ [] := by
      rw [hspkeys]; simp
    simp [makeRequestConfig, effectiveParams, hget, hne]
  · rw [hsp]
    exact unsorted_ne_canonical _ _ (by rw [hkeys]; simp)

/-- Witness for C10 at a concrete signed GET call with one original
parameter. -/
theorem claim_C10_get_query_insertion_order_witness :
    (createSignedParams "S" 1000 [("symbol", "BTCUSDT")]).map Prod.fst
      = ([("symbol", "BTCUSDT")] : List (String × String)).map Prod.fst
        ++ ["timestamp", "signature"]
    ∧ (makeRequestConfig "k" "https://api.binance.com" "S" 1000 "GET"
        "/api/v3/account" [("symbol", "BTCUSDT")] true).url
      = "https://api.binance.com" ++ "/api/v3/account" ++ "?"
        ++ unsortedQueryString (createSignedParams "S" 1000
            [("symbol", "BTCUSDT")])
    ∧ unsortedQueryString (createSignedParams "S" 1000
        [("symbol", "BTCUSDT")])
      ≠ canonicalQueryString (jsInsert [("symbol", "BTCUSDT")] "timestamp"
          (Nat.repr 1000)) :=
  claim_C10_get_query_insertion_order "k" "https://api.binance.com" "S"
    1000 "/api/v3/account" [("symbol", "BTCUSDT")] (by decide) (by decide)

end LockBay
